import Mathlib

/-!
Shallow embedding of the invite-link tracker (src/main.py, src/models.py).

Time is modelled as seconds (`Nat`); `datetime.utcnow()` becomes an explicit
`now : Nat` parameter.  Each SQLAlchemy table is a `List` kept in insertion
order (SQLite assigns autoincrement primary keys in insertion order, and a
`.first()` query without ORDER BY returns rows in that order), and `query(...)
.filter(...).first()` becomes `List.find?`.  A session's pending `add`s are
committed by appending to the table lists; a handler path that returns without
reaching `session.commit()` leaves the lists unchanged (the context manager
closes the session and rolls the pending rows back).  External calls
(`bot.create_chat_invite_link`, `bot.send_message`) are oracles passed in as
parameters; an exception from them is the `none` / `false` case.
-/

namespace TgInviteBot

/-- models.py `User` (the fields the handlers read). -/
structure User where
  id : Nat
  telegram_id : Nat
  username : Option String
  deriving DecidableEq

/-- models.py `InviteLink`.  `expires_at` is always set by the code
(`datetime.utcnow() + timedelta(minutes=5)`), so it is a plain `Nat` here. -/
structure InviteLink where
  id : Nat
  link : String
  inviter_id : Nat
  is_active : Bool
  expires_at : Nat
  used_at : Option Nat
  deriving DecidableEq

/-- models.py `InvitationLog`. -/
structure InvitationLog where
  id : Nat
  inviter_id : Nat
  invitee_id : Nat
  invite_link_id : Option Nat
  deriving DecidableEq

/-- The persistent store: the three tables, rows in insertion order. -/
structure DB where
  users : List User
  invite_links : List InviteLink
  invitation_logs : List InvitationLog
  deriving DecidableEq

/-- Replace the first element satisfying `p` (the row object returned by
`.first()` that the handler then mutates and commits). -/
def replaceFirst (p : α → Bool) (f : α → α) : List α → List α
  | [] => []
  | x :: xs => if p x then f x :: xs else x :: replaceFirst p f xs

/-- main.py:161-165 — the query filter
`inviter_id == inviter.id, is_active == True, expires_at > now`. -/
def activeFilter (inviterId now : Nat) (l : InviteLink) : Bool :=
  l.inviter_id == inviterId && l.is_active && decide (now < l.expires_at)

/-- main.py:161-165 — `session.query(InviteLink).filter(...).first()`. -/
def find_active_unexpired (db : DB) (inviterId now : Nat) : Option InviteLink :=
  db.invite_links.find? (activeFilter inviterId now)

/-- main.py:261 — `session.query(InviteLink).filter(InviteLink.link == link_str).first()`. -/
def find_by_token (db : DB) (tok : String) : Option InviteLink :=
  db.invite_links.find? (fun l => l.link == tok)

/-- Outcome of one join event at the ledger (main.py:263-295). -/
inductive JoinOutcome
  | success
  | expired
  | notFoundOrInactive
  deriving DecidableEq

/-- Externally visible actions of the join handler, in program order. -/
inductive Action
  | commitAttribution
  | notifyInviter (delivered : Bool)
  deriving DecidableEq

/-- main.py:266 and 282 — `invite_link.is_active = False` on the expiry path. -/
def deactivate (tok : String) (links : List InviteLink) : List InviteLink :=
  replaceFirst (fun x => x.link == tok) (fun x => { x with is_active := false }) links

/-- main.py:282-283 — `is_active = False; used_at = utcnow()` on the success path. -/
def consumeLinks (tok : String) (now : Nat) (links : List InviteLink) : List InviteLink :=
  replaceFirst (fun x => x.link == tok)
    (fun x => { x with is_active := false, used_at := some now }) links

/-- main.py:274-278 — the `InvitationLog` row (autoincrement id). -/
def newLogEntry (db : DB) (inv : User) (inviteeId : Nat) (l : InviteLink) : InvitationLog :=
  { id := db.invitation_logs.length + 1, inviter_id := inv.id,
    invitee_id := inviteeId, invite_link_id := some l.id }

/-- main.py:256-295, the link-resolution part of `on_new_chat_member` (the
invitee has already been upserted at line 254; `inviteeId` is its row id).
`notifyOk` is the outcome of `bot.send_message` at line 289; the surrounding
`try/except` swallows its failure.  `Except.error ()` models the
`AttributeError` raised at line 275 when `inviter` is `None` (`inviter.id` is
dereferenced before the `if inviter:` guard at line 286); the exception leaves
the session before line 284's commit, so nothing is persisted. -/
def on_new_chat_member (db : DB) (inviteeId : Nat) (linkStr : String) (now : Nat)
    (notifyOk : Bool) : Except Unit (DB × JoinOutcome × List Action) :=
  match find_by_token db linkStr with
  | none => Except.ok (db, JoinOutcome.notFoundOrInactive, [])
  | some l =>
    if l.is_active then
      if l.expires_at < now then
        Except.ok ({ db with invite_links := deactivate linkStr db.invite_links },
          JoinOutcome.expired, [])
      else
        match db.users.find? (fun u => u.id == l.inviter_id) with
        | none => Except.error ()
        | some inv =>
          Except.ok ({ db with
              invite_links := consumeLinks linkStr now db.invite_links,
              invitation_logs := db.invitation_logs ++ [newLogEntry db inv inviteeId l] },
            JoinOutcome.success,
            [Action.commitAttribution, Action.notifyInviter notifyOk])
    else Except.ok (db, JoinOutcome.notFoundOrInactive, [])

/-- One join event citing the shared token: the joining user's row id, the
clock when the event is processed, and the notification oracle's outcome. -/
structure JoinEvent where
  inviteeId : Nat
  now : Nat
  notifyOk : Bool
  deriving DecidableEq

/-- A sequence of join events all citing token `linkStr`, applied in arrival
order.  The handler's critical section (main.py:261-284) contains no `await`,
so under the cooperative event loop concurrent join events interleave only at
whole-handler granularity: any concurrent execution is some sequential order,
which the `events` list ranges over.  A raised exception skips the commit, so
the store is unchanged on the error branch. -/
def runJoins (db : DB) (linkStr : String) : List JoinEvent → DB × List JoinOutcome
  | [] => (db, [])
  | e :: es =>
    match on_new_chat_member db e.inviteeId linkStr e.now e.notifyOk with
    | Except.ok (db', out, _) =>
      ((runJoins db' linkStr es).1, out :: (runJoins db' linkStr es).2)
    | Except.error _ => runJoins db linkStr es

/-- main.py:79 — `MAX_LINKS_PER_REQUEST = 20`. -/
def MAX_LINKS_PER_REQUEST : Nat := 20

/-- Replies sent by the `/invite` mass path (main.py:111-155), in send order. -/
inductive Msg
  | notPositive
  | clamped (maxN : Nat)
  | generating (n : Nat)
  | errorAfter (k : Nat)
  | links (tokens : List String)
  deriving DecidableEq

/-- main.py:120-122 — the clamp applied to an admin's requested count
(`int(args[1])` may be any integer; non-positive counts are rejected before
this is used). -/
def clampCount (c : Int) : Nat :=
  if (MAX_LINKS_PER_REQUEST : Int) < c then MAX_LINKS_PER_REQUEST else c.toNat

/-- main.py:131-148 — the creation loop.  `create i` is the outcome of the
`bot.create_chat_invite_link` call at iteration `i` (`none` = the call raised).
On failure the handler replies naming `i`, the number of links created so far,
and returns: `Except.error i`.  On full success it yields the token list. -/
def massLoop (create : Nat → Option String) (i : Nat) : Nat → Except Nat (List String)
  | 0 => Except.ok []
  | n + 1 =>
    match create i with
    | none => Except.error i
    | some tok =>
      match massLoop create (i + 1) n with
      | Except.error k => Except.error k
      | Except.ok toks => Except.ok (tok :: toks)

/-- The `InviteLink` rows built at main.py:138-143, ids in insertion order. -/
def mkLinks (inviterId expires : Nat) : Nat → List String → List InviteLink
  | _, [] => []
  | nid, tok :: toks =>
    { id := nid, link := tok, inviter_id := inviterId, is_active := true,
      expires_at := expires, used_at := none } :: mkLinks inviterId expires (nid + 1) toks

/-- main.py:111-155 — the admin mass-generation path of `/invite <count>`
(the requester has already been checked to be an administrator and upserted;
`inviterId` is their row id).  The single `session.commit()` at line 150 is
reached only when the whole loop succeeds; on a mid-loop failure the handler
returns inside the `with SessionLocal()` block without committing, so the
pending rows are rolled back when the session closes and the store is
unchanged. -/
def invite_mass (db : DB) (inviterId : Nat) (count : Int) (create : Nat → Option String)
    (now : Nat) : DB × List Msg :=
  if count ≤ 0 then (db, [Msg.notPositive])
  else
    match massLoop create 0 (clampCount count) with
    | Except.error k =>
      (db,
        (if (MAX_LINKS_PER_REQUEST : Int) < count then [Msg.clamped MAX_LINKS_PER_REQUEST]
          else []) ++ [Msg.generating (clampCount count), Msg.errorAfter k])
    | Except.ok toks =>
      ({ db with invite_links :=
          db.invite_links ++ mkLinks inviterId (now + 300) (db.invite_links.length + 1) toks },
        (if (MAX_LINKS_PER_REQUEST : Int) < count then [Msg.clamped MAX_LINKS_PER_REQUEST]
          else []) ++ [Msg.generating (clampCount count), Msg.links toks])

/-- Reply of the single-link `/invite` path (main.py:158-192). -/
inductive SingleReply
  | conflict (token : String) (timeLeftSecs : Nat)
  | newLink (token : String)
  | createError
  deriving DecidableEq

/-- main.py:158-192 — the single-link path (requester already a member and
upserted; `inviterId` their row id).  `createResult` is the outcome of the
`bot.create_chat_invite_link` call.  Line 168's `(expires_at - now).seconds`
is the seconds field of the (positive, here whole-second) timedelta, i.e. the
total seconds modulo one day. -/
def invite_single (db : DB) (inviterId now : Nat) (createResult : Option String) :
    DB × SingleReply :=
  match find_active_unexpired db inviterId now with
  | some l => (db, SingleReply.conflict l.link ((l.expires_at - now) % 86400))
  | none =>
    match createResult with
    | some tok =>
      ({ db with invite_links := db.invite_links ++
          [{ id := db.invite_links.length + 1, link := tok, inviter_id := inviterId,
             is_active := true, expires_at := now + 300, used_at := none }] },
        SingleReply.newLink tok)
    | none => (db, SingleReply.createError)

/-- main.py:226 — `session.query(InvitationLog).filter(InvitationLog.invitee_id
== invitee.id).first()`, the who-invited lookup (no ORDER BY: first row in
table order). -/
def lookup_inviter_log (db : DB) (inviteeId : Nat) : Option InvitationLog :=
  db.invitation_logs.find? (fun e => e.invitee_id == inviteeId)

/-- After a success or an expiry deactivation, the row `find_by_token` resolves
for this token is inactive. -/
def tokenInactive (db : DB) (tok : String) : Prop :=
  ∀ l, find_by_token db tok = some l → l.is_active = false

/-- The consumption timestamp of the row `find_by_token` resolves for a token
(`none` when no row matches; `some u` exposes that row's `used_at`). -/
def linkUsedAt (db : DB) (tok : String) : Option (Option Nat) :=
  (find_by_token db tok).map (fun l => l.used_at)

/-! ### Concrete fixtures (used by the witnesses) -/

def userA : User := { id := 1, telegram_id := 100, username := some "alice" }

def userB : User := { id := 2, telegram_id := 200, username := some "bob" }

/-- An active link of user A expiring at t = 600. -/
def linkFresh : InviteLink :=
  { id := 1, link := "t-fresh", inviter_id := 1, is_active := true,
    expires_at := 600, used_at := none }

def dbA : DB := { users := [userA, userB], invite_links := [linkFresh], invitation_logs := [] }

/-- `dbA` after user B consumes `linkFresh` at t = 300. -/
def dbA' : DB :=
  { users := [userA, userB],
    invite_links := [{ id := 1, link := "t-fresh", inviter_id := 1, is_active := false,
                       expires_at := 600, used_at := some 300 }],
    invitation_logs := [{ id := 1, inviter_id := 1, invitee_id := 2, invite_link_id := some 1 }] }

/-- A link of user A already past its expiry (t = 50) but still flagged active. -/
def linkStale : InviteLink :=
  { id := 2, link := "t-stale", inviter_id := 1, is_active := true,
    expires_at := 50, used_at := none }

def dbB : DB := { users := [userA, userB], invite_links := [linkStale], invitation_logs := [] }

/-- An active link whose inviter row (id 99) is absent from `users`. -/
def linkOrphan : InviteLink :=
  { id := 3, link := "t-orphan", inviter_id := 99, is_active := true,
    expires_at := 600, used_at := none }

def dbC : DB := { users := [userA], invite_links := [linkOrphan], invitation_logs := [] }

/-- An active link of user A whose expiry equals the probe instant t = 300. -/
def linkEdge : InviteLink :=
  { id := 4, link := "t-edge", inviter_id := 1, is_active := true,
    expires_at := 300, used_at := none }

def dbD : DB := { users := [userA, userB], invite_links := [linkEdge], invitation_logs := [] }

def logEarly : InvitationLog :=
  { id := 1, inviter_id := 1, invitee_id := 5, invite_link_id := some 1 }

def logLate : InvitationLog :=
  { id := 2, inviter_id := 2, invitee_id := 5, invite_link_id := some 2 }

/-- Two attribution rows for the same invitee (id 5), in insertion order. -/
def dbE : DB := { users := [], invite_links := [], invitation_logs := [logEarly, logLate] }

def dbEmpty : DB := { users := [userA], invite_links := [], invitation_logs := [] }

/-- External link creation succeeding on the first call and failing afterwards. -/
def createFailAfter1 : Nat → Option String := fun i => if i = 0 then some "t0" else none

/-- External link creation that always succeeds. -/
def createAlways : Nat → Option String := fun _ => some "t-any"

/-! ### Helper lemmas -/

theorem find?_replaceFirst (p : α → Bool) (f : α → α) (hf : ∀ x, p (f x) = p x) :
    ∀ xs : List α, (replaceFirst p f xs).find? p = (xs.find? p).map f
  | [] => rfl
  | x :: xs => by
    by_cases hp : p x = true
    · simp [replaceFirst, hp, List.find?_cons, hf x]
    · have hp' : p x = false := by simpa using hp
      simp [replaceFirst, hp', List.find?_cons, find?_replaceFirst p f hf xs]

theorem find_by_token_deactivate (db : DB) (tok : String) :
    find_by_token { db with invite_links := deactivate tok db.invite_links } tok
      = (find_by_token db tok).map (fun x => { x with is_active := false }) := by
  unfold find_by_token deactivate
  exact find?_replaceFirst (fun l => l.link == tok)
    (fun x => { x with is_active := false }) (fun x => rfl) db.invite_links

theorem find_by_token_consume (db : DB) (tok : String) (now : Nat) :
    find_by_token { db with invite_links := consumeLinks tok now db.invite_links } tok
      = (find_by_token db tok).map (fun x => { x with is_active := false, used_at := some now }) := by
  unfold find_by_token consumeLinks
  exact find?_replaceFirst (fun l => l.link == tok)
    (fun x => { x with is_active := false, used_at := some now }) (fun x => rfl)
    db.invite_links

theorem tokenInactive_deactivate (db : DB) (tok : String) :
    tokenInactive { db with invite_links := deactivate tok db.invite_links } tok := by
  intro l hl
  rw [find_by_token_deactivate] at hl
  cases h : find_by_token db tok with
  | none => rw [h] at hl; exact absurd hl (by simp)
  | some x => rw [h] at hl; simp at hl; rw [← hl]

theorem tokenInactive_consume (db : DB) (tok : String) (now : Nat) :
    tokenInactive { db with invite_links := consumeLinks tok now db.invite_links } tok := by
  intro l hl
  rw [find_by_token_consume] at hl
  cases h : find_by_token db tok with
  | none => rw [h] at hl; exact absurd hl (by simp)
  | some x => rw [h] at hl; simp at hl; rw [← hl]

/-- With the token's row already inactive (or absent), a join event is a no-op
reported as not-found-or-inactive (main.py:295). -/
theorem on_new_inactive (db : DB) (i : Nat) (tok : String) (now : Nat) (ok : Bool)
    (h : tokenInactive db tok) :
    on_new_chat_member db i tok now ok = Except.ok (db, JoinOutcome.notFoundOrInactive, []) := by
  unfold on_new_chat_member
  cases hf : find_by_token db tok with
  | none => rfl
  | some l => simp [h l hf]

theorem on_new_expired (db : DB) (i : Nat) (tok : String) (now : Nat) (ok : Bool)
    (l : InviteLink) (hf : find_by_token db tok = some l) (ha : l.is_active = true)
    (he : l.expires_at < now) :
    on_new_chat_member db i tok now ok
      = Except.ok ({ db with invite_links := deactivate tok db.invite_links },
          JoinOutcome.expired, []) := by
  unfold on_new_chat_member
  rw [hf]
  simp [ha, he]

theorem on_new_success (db : DB) (i : Nat) (tok : String) (now : Nat) (ok : Bool)
    (l : InviteLink) (inv : User) (hf : find_by_token db tok = some l)
    (ha : l.is_active = true) (he : ¬ l.expires_at < now)
    (hu : db.users.find? (fun u => u.id == l.inviter_id) = some inv) :
    on_new_chat_member db i tok now ok
      = Except.ok ({ db with
            invite_links := consumeLinks tok now db.invite_links,
            invitation_logs := db.invitation_logs ++ [newLogEntry db inv i l] },
          JoinOutcome.success,
          [Action.commitAttribution, Action.notifyInviter ok]) := by
  unfold on_new_chat_member
  rw [hf]
  simp [ha, he, hu]

theorem on_new_raises (db : DB) (i : Nat) (tok : String) (now : Nat) (ok : Bool)
    (l : InviteLink) (hf : find_by_token db tok = some l)
    (ha : l.is_active = true) (he : ¬ l.expires_at < now)
    (hu : db.users.find? (fun u => u.id == l.inviter_id) = none) :
    on_new_chat_member db i tok now ok = Except.error () := by
  unfold on_new_chat_member
  rw [hf]
  simp [ha, he, hu]

/-- Exhaustive case analysis of one join event. -/
theorem on_new_cases (db : DB) (i : Nat) (tok : String) (now : Nat) (ok : Bool) :
    (on_new_chat_member db i tok now ok = Except.error ()) ∨
    (tokenInactive db tok ∧
      on_new_chat_member db i tok now ok
        = Except.ok (db, JoinOutcome.notFoundOrInactive, [])) ∨
    (∃ db', on_new_chat_member db i tok now ok = Except.ok (db', JoinOutcome.expired, []) ∧
      tokenInactive db' tok ∧ db'.invitation_logs = db.invitation_logs) ∨
    (∃ db' acts,
      on_new_chat_member db i tok now ok = Except.ok (db', JoinOutcome.success, acts) ∧
      tokenInactive db' tok ∧
      db'.invitation_logs.length = db.invitation_logs.length + 1) := by
  cases hf : find_by_token db tok with
  | none =>
    refine Or.inr (Or.inl ⟨?_, ?_⟩)
    · intro l hl; rw [hf] at hl; exact absurd hl (by simp)
    · unfold on_new_chat_member; rw [hf]
  | some l =>
    by_cases ha : l.is_active = true
    · by_cases he : l.expires_at < now
      · refine Or.inr (Or.inr (Or.inl ⟨_, on_new_expired db i tok now ok l hf ha he, ?_, rfl⟩))
        exact tokenInactive_deactivate db tok
      · cases hu : db.users.find? (fun u => u.id == l.inviter_id) with
        | none => exact Or.inl (on_new_raises db i tok now ok l hf ha he hu)
        | some inv =>
          refine Or.inr (Or.inr (Or.inr
            ⟨_, _, on_new_success db i tok now ok l inv hf ha he hu, ?_, by simp⟩))
          exact tokenInactive_consume db tok now
    · have ha' : l.is_active = false := by simpa using ha
      have hti : tokenInactive db tok := by
        intro l' hl'; rw [hf] at hl'
        have : l' = l := by simpa using hl'.symm
        rw [this]; exact ha'
      exact Or.inr (Or.inl ⟨hti, on_new_inactive db i tok now ok hti⟩)

/-- Once the token's row is inactive, every later join event citing it is a
reported no-op and the store never changes again. -/
theorem runJoins_inactive (tok : String) :
    ∀ (es : List JoinEvent) (db : DB), tokenInactive db tok →
      runJoins db tok es = (db, es.map fun _ => JoinOutcome.notFoundOrInactive)
  | [], db, _ => rfl
  | e :: es, db, h => by
    have hstep := on_new_inactive db e.inviteeId tok e.now e.notifyOk h
    have ih := runJoins_inactive tok es db h
    unfold runJoins
    rw [hstep]
    show ((runJoins db tok es).1, JoinOutcome.notFoundOrInactive :: (runJoins db tok es).2)
      = (db, (e :: es).map fun _ => JoinOutcome.notFoundOrInactive)
    rw [ih]
    simp

theorem countP_success_replicate_notFound (n : Nat) :
    List.countP (fun o => decide (o = JoinOutcome.success))
      (List.replicate n JoinOutcome.notFoundOrInactive) = 0 := by
  induction n with
  | zero => rfl
  | succ m ih => simp [List.replicate, List.countP_cons, ih]

/-- Across any arrival order of join events citing one token, at most one
reports success, and at most one `InvitationLog` row is appended. -/
theorem runJoins_spec (tok : String) :
    ∀ (es : List JoinEvent) (db : DB),
      ((runJoins db tok es).2.countP (fun o => decide (o = JoinOutcome.success)) ≤ 1) ∧
      (runJoins db tok es).1.invitation_logs.length ≤ db.invitation_logs.length + 1
  | [], db => by simp [runJoins]
  | e :: es, db => by
    rcases on_new_cases db e.inviteeId tok e.now e.notifyOk with
      hE | ⟨hti, hN⟩ | ⟨db', hX, hti, hlogs⟩ | ⟨db', acts, hX, hti, hlen⟩
    · unfold runJoins
      rw [hE]
      exact runJoins_spec tok es db
    · unfold runJoins
      rw [hN]
      have ih := runJoins_spec tok es db
      refine ⟨?_, ih.2⟩
      show List.countP (fun o => decide (o = JoinOutcome.success))
        (JoinOutcome.notFoundOrInactive :: (runJoins db tok es).2) ≤ 1
      simpa [List.countP_cons] using ih.1
    · unfold runJoins
      rw [hX]
      show (List.countP (fun o => decide (o = JoinOutcome.success))
          (JoinOutcome.expired :: (runJoins db' tok es).2) ≤ 1) ∧
        (runJoins db' tok es).1.invitation_logs.length ≤ db.invitation_logs.length + 1
      rw [runJoins_inactive tok es db' hti]
      simp [List.countP_cons, List.countP_map, hlogs, countP_success_replicate_notFound]
    · unfold runJoins
      rw [hX]
      show (List.countP (fun o => decide (o = JoinOutcome.success))
          (JoinOutcome.success :: (runJoins db' tok es).2) ≤ 1) ∧
        (runJoins db' tok es).1.invitation_logs.length ≤ db.invitation_logs.length + 1
      rw [runJoins_inactive tok es db' hti]
      simp [List.countP_cons, List.countP_map, hlen, countP_success_replicate_notFound]

/-- The issuance-time filter is antitone in the clock: a row passing it at a
later instant passed it at any earlier instant. -/
theorem activeFilter_le {uid now now' : Nat} (hle : now ≤ now') (x : InviteLink)
    (h : activeFilter uid now' x = true) : activeFilter uid now x = true := by
  simp only [activeFilter, Bool.and_eq_true, beq_iff_eq, decide_eq_true_eq] at h ⊢
  exact ⟨⟨h.1.1, h.1.2⟩, by omega⟩

/-- The active-unexpired lookup is stable under advancing the clock, as long as
the returned link is still unexpired. -/
theorem find_active_mono (uid : Nat) {now now' : Nat} (hle : now ≤ now') :
    ∀ (xs : List InviteLink) (l : InviteLink),
      xs.find? (activeFilter uid now) = some l → now' < l.expires_at →
      xs.find? (activeFilter uid now') = some l
  | [], l, h, _ => by simp at h
  | x :: xs, l, h, hexp => by
    by_cases hx : activeFilter uid now x = true
    · rw [List.find?_cons_of_pos _ hx] at h
      have hxl : x = l := by simpa using h
      subst hxl
      refine List.find?_cons_of_pos _ ?_
      simp only [activeFilter, Bool.and_eq_true, beq_iff_eq, decide_eq_true_eq] at hx ⊢
      exact ⟨hx.1, hexp⟩
    · have hx' : ¬ activeFilter uid now' x = true := fun hc => hx (activeFilter_le hle x hc)
      rw [List.find?_cons_of_neg _ hx] at h
      rw [List.find?_cons_of_neg _ hx']
      exact find_active_mono uid hle xs l h hexp

/-- When every external creation call succeeds, the batch loop yields one token
per requested link. -/
theorem massLoop_ok_of_all_some (create : Nat → Option String)
    (hall : ∀ j, (create j).isSome) :
    ∀ (n i : Nat), ∃ toks, massLoop create i n = Except.ok toks ∧ toks.length = n
  | 0, _ => ⟨[], rfl, rfl⟩
  | n + 1, i => by
    obtain ⟨toks, hok, hlen⟩ := massLoop_ok_of_all_some create hall n (i + 1)
    obtain ⟨tok, htok⟩ := Option.isSome_iff_exists.mp (hall i)
    refine ⟨tok :: toks, ?_, by simp [hlen]⟩
    unfold massLoop
    rw [htok, hok]

/-- When the k-th creation call fails after k successes, the batch loop aborts
reporting k. -/
theorem massLoop_error (create : Nat → Option String) :
    ∀ (k i n : Nat), k < n → (∀ j, j < k → (create (i + j)).isSome) →
      create (i + k) = none → massLoop create i n = Except.error (i + k)
  | 0, _, 0, hkn, _, _ => absurd hkn (by omega)
  | 0, i, n + 1, _, _, hfail => by
    unfold massLoop
    rw [show i + 0 = i from rfl] at hfail
    rw [hfail]
    rfl
  | k + 1, _, 0, hkn, _, _ => absurd hkn (by omega)
  | k + 1, i, n + 1, hkn, hsucc, hfail => by
    obtain ⟨tok, htok⟩ := Option.isSome_iff_exists.mp (by simpa using hsucc 0 (by omega))
    have hrec := massLoop_error create k (i + 1) n (by omega)
      (fun j hj => by
        have hj' := hsucc (j + 1) (by omega)
        simpa [show i + (j + 1) = i + 1 + j by omega] using hj')
      (by simpa [show i + (k + 1) = i + 1 + k by omega] using hfail)
    unfold massLoop
    rw [htok, hrec]
    simp [show i + 1 + k = i + (k + 1) by omega]

theorem mkLinks_length (inviterId expires : Nat) :
    ∀ (toks : List String) (nid : Nat), (mkLinks inviterId expires nid toks).length = toks.length
  | [], _ => rfl
  | _ :: toks, nid => by simp [mkLinks, mkLinks_length inviterId expires toks (nid + 1)]

/-- One join event changes the stored consumption timestamp of its token's row
exactly when it reports success, and then sets it to the event's clock. -/
theorem usedAt_step (db : DB) (i : Nat) (tok : String) (now : Nat) (ok : Bool)
    (db' : DB) (out : JoinOutcome) (acts : List Action)
    (h : on_new_chat_member db i tok now ok = Except.ok (db', out, acts)) :
    (out = JoinOutcome.success ∧ linkUsedAt db' tok = some (some now)) ∨
    (out ≠ JoinOutcome.success ∧ linkUsedAt db' tok = linkUsedAt db tok) := by
  cases hf : find_by_token db tok with
  | none =>
    have hti : tokenInactive db tok := by
      intro l hl; rw [hf] at hl; exact absurd hl (by simp)
    rw [on_new_inactive db i tok now ok hti] at h
    simp only [Except.ok.injEq, Prod.mk.injEq] at h
    obtain ⟨h1, h2, -⟩ := h
    subst h1; subst h2
    exact Or.inr ⟨by simp, rfl⟩
  | some l =>
    by_cases ha : l.is_active = true
    · by_cases he : l.expires_at < now
      · rw [on_new_expired db i tok now ok l hf ha he] at h
        simp only [Except.ok.injEq, Prod.mk.injEq] at h
        obtain ⟨h1, h2, -⟩ := h
        subst h1; subst h2
        refine Or.inr ⟨by simp, ?_⟩
        simp [linkUsedAt, find_by_token_deactivate, hf]
      · cases hu : db.users.find? (fun u => u.id == l.inviter_id) with
        | none =>
          rw [on_new_raises db i tok now ok l hf ha he hu] at h
          exact absurd h (by simp)
        | some inv =>
          rw [on_new_success db i tok now ok l inv hf ha he hu] at h
          simp only [Except.ok.injEq, Prod.mk.injEq] at h
          obtain ⟨h1, h2, -⟩ := h
          subst h1; subst h2
          refine Or.inl ⟨rfl, ?_⟩
          have hf' : List.find? (fun x => x.link == tok) db.invite_links = some l := hf
          unfold linkUsedAt find_by_token consumeLinks
          rw [find?_replaceFirst (fun x => x.link == tok)
            (fun x => { x with is_active := false, used_at := some now }) (fun x => rfl)
            db.invite_links, hf']
          rfl
    · have ha' : l.is_active = false := by simpa using ha
      have hti : tokenInactive db tok := by
        intro l' hl'; rw [hf] at hl'
        have : l' = l := by simpa using hl'.symm
        rw [this]; exact ha'
      rw [on_new_inactive db i tok now ok hti] at h
      simp only [Except.ok.injEq, Prod.mk.injEq] at h
      obtain ⟨h1, h2, -⟩ := h
      subst h1; subst h2
      exact Or.inr ⟨by simp, rfl⟩

/-- Without ORDER BY, `.first()` on rows in insertion order with increasing
primary keys returns the matching row of least id. -/
theorem find?_min_id (inviteeId : Nat) :
    ∀ (xs : List InvitationLog), xs.Pairwise (fun a b => a.id < b.id) →
      ∀ e, xs.find? (fun x => x.invitee_id == inviteeId) = some e →
        e.invitee_id = inviteeId ∧ ∀ e' ∈ xs, e'.invitee_id = inviteeId → e.id ≤ e'.id
  | [], _, e, h => by simp at h
  | x :: xs, hp, e, h => by
    rw [List.pairwise_cons] at hp
    by_cases hx : (x.invitee_id == inviteeId) = true
    · rw [List.find?_cons_of_pos (p := fun y : InvitationLog => y.invitee_id == inviteeId) _ hx] at h
      have hxe : x = e := by simpa using h
      subst hxe
      refine ⟨by simpa using hx, ?_⟩
      intro e' he' _
      rcases List.mem_cons.mp he' with rfl | hmem
      · exact Nat.le_refl _
      · exact Nat.le_of_lt (hp.1 e' hmem)
    · rw [List.find?_cons_of_neg (p := fun y : InvitationLog => y.invitee_id == inviteeId) _ hx] at h
      obtain ⟨h1, h2⟩ := find?_min_id inviteeId xs hp.2 e h
      refine ⟨h1, ?_⟩
      intro e' he' hinv
      rcases List.mem_cons.mp he' with rfl | hmem
      · exact absurd (by simpa using hinv) hx
      · exact h2 e' hmem hinv

/-! ### Claims -/

/-- Claim C1: for every token, across any number of concurrent `consume` calls
(concurrent join events citing the same invite link, modelled as every possible
sequential interleaving of the handler's atomic critical section, which holds
no await point), at most one call returns success, and at most one attribution
record is written; all other calls observe the link as already-inactive or
expired (`JoinOutcome.notFoundOrInactive` / `JoinOutcome.expired` are the only
other outcomes). -/
theorem C1_exactly_once_consumption (db : DB) (tok : String) (es : List JoinEvent) :
    ((runJoins db tok es).2.countP (fun o => decide (o = JoinOutcome.success)) ≤ 1) ∧
    (runJoins db tok es).1.invitation_logs.length ≤ db.invitation_logs.length + 1 :=
  runJoins_spec tok es db

/-- Claim C2, counterexample: a batch of N = 2 where creation fails after
K = 1 success.  The handler returns from inside the session without reaching
the commit at main.py:150, so the pending row is rolled back: 0 `InviteLink`
rows exist afterwards, not K = 1, although the caller is told 1 succeeded. -/
theorem C2_counterexample :
    (invite_mass dbEmpty 1 2 createFailAfter1 0).1.invite_links.length = 0 ∧
    Msg.errorAfter 1 ∈ (invite_mass dbEmpty 1 2 createFailAfter1 0).2 ∧
    ¬ (invite_mass dbEmpty 1 2 createFailAfter1 0).1.invite_links.length = 1 := by
  decide

/-- Claim C2 (amended): for every batch request, if external link creation
fails after K links have succeeded (K < requested-after-clamp), then zero
`InviteLink` rows are persisted — the K pending rows are discarded because the
single commit at main.py:150 is never reached and the session closes with a
rollback — the already-created platform-side links are not revoked, and the
caller is informed that K succeeded. -/
theorem C2_partial_batch_no_commit (db : DB) (uid : Nat) (count : Int)
    (create : Nat → Option String) (now k : Nat)
    (hpos : 0 < count) (hk : k < clampCount count)
    (hsucc : ∀ j, j < k → (create j).isSome) (hfail : create k = none) :
    (invite_mass db uid count create now).1 = db ∧
    Msg.errorAfter k ∈ (invite_mass db uid count create now).2 := by
  have hloop : massLoop create 0 (clampCount count) = Except.error k := by
    have h := massLoop_error create k 0 (clampCount count) hk
      (fun j hj => by simpa using hsucc j hj) (by simpa using hfail)
    simpa using h
  unfold invite_mass
  rw [if_neg (by omega : ¬ count ≤ 0), hloop]
  exact ⟨rfl, by simp⟩

theorem C2_witness :
    (0 : Int) < 2 ∧ 1 < clampCount 2 ∧ createFailAfter1 1 = none ∧
    (invite_mass dbEmpty 1 2 createFailAfter1 0).1 = dbEmpty ∧
    Msg.errorAfter 1 ∈ (invite_mass dbEmpty 1 2 createFailAfter1 0).2 := by
  refine ⟨by decide, by decide, by decide, ?_⟩
  exact C2_partial_batch_no_commit dbEmpty 1 2 createFailAfter1 0 1 (by decide) (by decide)
    (fun j hj => by
      have hj0 : j = 0 := by omega
      subst hj0
      decide) (by decide)

/-- Claim C3: a join event citing a link whose expiry is in the past
deactivates the link, leaves its consumption timestamp null, and writes no
`InvitationLog` entry; and across all join processing, the stored consumption
timestamp changes exactly on a success outcome (and is then set to the
processing clock) — never on expiry. -/
theorem C3_expired_join (db : DB) (i : Nat) (tok : String) (now : Nat) (ok : Bool)
    (l : InviteLink) (hf : find_by_token db tok = some l) (ha : l.is_active = true)
    (he : l.expires_at < now) (hnull : l.used_at = none) :
    (∃ db' l', on_new_chat_member db i tok now ok
        = Except.ok (db', JoinOutcome.expired, []) ∧
      db'.invitation_logs = db.invitation_logs ∧
      find_by_token db' tok = some l' ∧ l'.is_active = false ∧ l'.used_at = none) ∧
    (∀ (db₂ : DB) (i₂ : Nat) (tok₂ : String) (now₂ : Nat) (ok₂ : Bool) (db₂' : DB)
        (out : JoinOutcome) (acts : List Action),
      on_new_chat_member db₂ i₂ tok₂ now₂ ok₂ = Except.ok (db₂', out, acts) →
      (out = JoinOutcome.success ∧ linkUsedAt db₂' tok₂ = some (some now₂)) ∨
      (out ≠ JoinOutcome.success ∧ linkUsedAt db₂' tok₂ = linkUsedAt db₂ tok₂)) := by
  constructor
  · refine ⟨_, { l with is_active := false },
      on_new_expired db i tok now ok l hf ha he, rfl, ?_, rfl, hnull⟩
    rw [find_by_token_deactivate, hf]
    rfl
  · exact usedAt_step

theorem C3_witness :
    linkStale.expires_at < 100 ∧
    (∃ db' l', on_new_chat_member dbB 2 "t-stale" 100 true
        = Except.ok (db', JoinOutcome.expired, []) ∧
      db'.invitation_logs = dbB.invitation_logs ∧
      find_by_token db' "t-stale" = some l' ∧ l'.is_active = false ∧ l'.used_at = none) :=
  ⟨by decide,
    (C3_expired_join dbB 2 "t-stale" 100 true linkStale (by decide) (by decide) (by decide)
      (by decide)).1⟩

/-- Claim C4: a single-link request by a requester who already owns an
active-and-unexpired link issues no new link and replies with the conflict
message carrying that link's token and its remaining time-to-expiry; a
repeated request at any later instant before the link's expiry returns the
same link again (the store is unchanged in between).  The hypothesis
`l.expires_at - now < 86400` reflects that the code renders the remaining time
via the timedelta's seconds field, which equals the full remainder for spans
under one day (links live 5 minutes). -/
theorem C4_conflict_idempotent (db : DB) (uid now now' : Nat) (l : InviteLink)
    (cr cr' : Option String)
    (h : find_active_unexpired db uid now = some l)
    (hle : now ≤ now') (hexp : now' < l.expires_at) (hday : l.expires_at - now < 86400) :
    invite_single db uid now cr = (db, SingleReply.conflict l.link (l.expires_at - now)) ∧
    invite_single db uid now' cr' = (db, SingleReply.conflict l.link (l.expires_at - now')) := by
  have h' : find_active_unexpired db uid now' = some l :=
    find_active_mono uid hle db.invite_links l h hexp
  constructor
  · unfold invite_single
    rw [h]
    show (db, SingleReply.conflict l.link ((l.expires_at - now) % 86400)) = _
    rw [Nat.mod_eq_of_lt hday]
  · unfold invite_single
    rw [h']
    show (db, SingleReply.conflict l.link ((l.expires_at - now') % 86400)) = _
    rw [Nat.mod_eq_of_lt (by omega)]

theorem C4_witness :
    find_active_unexpired dbA 1 300 = some linkFresh ∧
    invite_single dbA 1 300 none
      = (dbA, SingleReply.conflict linkFresh.link (linkFresh.expires_at - 300)) ∧
    invite_single dbA 1 400 none
      = (dbA, SingleReply.conflict linkFresh.link (linkFresh.expires_at - 400)) :=
  ⟨by decide,
    (C4_conflict_idempotent dbA 1 300 400 linkFresh none none (by decide) (by decide)
      (by decide) (by decide)).1,
    (C4_conflict_idempotent dbA 1 300 400 linkFresh none none (by decide) (by decide)
      (by decide) (by decide)).2⟩

/-- Claim C5: `find_active_unexpired` only ever returns a link whose expiry
timestamp is strictly in the future (the query filter demands
`expires_at > now`), so a link whose expiry is in the past is never returned,
even while its active flag is still true in storage. -/
theorem C5_expiry_exclusion (db : DB) (inviterId now : Nat) (l : InviteLink)
    (h : find_active_unexpired db inviterId now = some l) :
    l.is_active = true ∧ now < l.expires_at := by
  have hp := List.find?_some h
  simp only [activeFilter, Bool.and_eq_true, beq_iff_eq, decide_eq_true_eq] at hp
  exact ⟨hp.1.2, hp.2⟩

theorem C5_witness :
    find_active_unexpired dbA 1 300 = some linkFresh ∧
    linkFresh.is_active = true ∧ 300 < linkFresh.expires_at :=
  ⟨by decide, C5_expiry_exclusion dbA 1 300 linkFresh (by decide)⟩

/-- Claim C6: a batch request for strictly more than the configured maximum
(20) is clamped down, not rejected: exactly the maximum number of links is
created (when every external creation call succeeds) and the caller is told
about the clamp. -/
theorem C6_clamp (db : DB) (uid : Nat) (count : Int) (create : Nat → Option String)
    (now : Nat) (hbig : (MAX_LINKS_PER_REQUEST : Int) < count)
    (hall : ∀ j, (create j).isSome) :
    (invite_mass db uid count create now).1.invite_links.length
      = db.invite_links.length + MAX_LINKS_PER_REQUEST ∧
    Msg.clamped MAX_LINKS_PER_REQUEST ∈ (invite_mass db uid count create now).2 := by
  have hpos : ¬ count ≤ 0 := by
    simp only [MAX_LINKS_PER_REQUEST] at hbig
    omega
  obtain ⟨toks, hok, hlen⟩ := massLoop_ok_of_all_some create hall (clampCount count) 0
  have hclamp : clampCount count = MAX_LINKS_PER_REQUEST := by
    unfold clampCount
    rw [if_pos hbig]
  unfold invite_mass
  rw [if_neg hpos, hok]
  constructor
  · show (db.invite_links
        ++ mkLinks uid (now + 300) (db.invite_links.length + 1) toks).length = _
    rw [List.length_append, mkLinks_length, hlen, hclamp]
  · show Msg.clamped MAX_LINKS_PER_REQUEST ∈
      (if (MAX_LINKS_PER_REQUEST : Int) < count then [Msg.clamped MAX_LINKS_PER_REQUEST]
        else []) ++ [Msg.generating (clampCount count), Msg.links toks]
    rw [if_pos hbig]
    simp

theorem C6_witness :
    (MAX_LINKS_PER_REQUEST : Int) < 25 ∧
    (invite_mass dbEmpty 1 25 createAlways 0).1.invite_links.length
      = dbEmpty.invite_links.length + MAX_LINKS_PER_REQUEST ∧
    Msg.clamped MAX_LINKS_PER_REQUEST ∈ (invite_mass dbEmpty 1 25 createAlways 0).2 :=
  ⟨by decide,
    (C6_clamp dbEmpty 1 25 createAlways 0 (by decide) (fun j => rfl)).1,
    (C6_clamp dbEmpty 1 25 createAlways 0 (by decide) (fun j => rfl)).2⟩

/-- Claim C7: on a successful consumption the attribution row is committed
before the inviter notification is attempted (the handler's action trace is
commit-then-notify), and the notification outcome — delivered or failed —
never changes the committed store: the same post-state, with exactly one new
attribution entry for the invitee, results either way. -/
theorem C7_notify_after_commit (db : DB) (i : Nat) (tok : String) (now : Nat) (ok : Bool)
    (db' : DB) (acts : List Action)
    (h : on_new_chat_member db i tok now ok = Except.ok (db', JoinOutcome.success, acts)) :
    acts = [Action.commitAttribution, Action.notifyInviter ok] ∧
    (∀ ok' : Bool, on_new_chat_member db i tok now ok'
        = Except.ok (db', JoinOutcome.success,
            [Action.commitAttribution, Action.notifyInviter ok'])) ∧
    (∃ e, db'.invitation_logs = db.invitation_logs ++ [e] ∧ e.invitee_id = i) := by
  cases hf : find_by_token db tok with
  | none =>
    have hti : tokenInactive db tok := by
      intro l hl; rw [hf] at hl; exact absurd hl (by simp)
    rw [on_new_inactive db i tok now ok hti] at h
    exact absurd h (by simp)
  | some l =>
    by_cases ha : l.is_active = true
    · by_cases he : l.expires_at < now
      · rw [on_new_expired db i tok now ok l hf ha he] at h
        exact absurd h (by simp)
      · cases hu : db.users.find? (fun u => u.id == l.inviter_id) with
        | none =>
          rw [on_new_raises db i tok now ok l hf ha he hu] at h
          exact absurd h (by simp)
        | some inv =>
          rw [on_new_success db i tok now ok l inv hf ha he hu] at h
          simp only [Except.ok.injEq, Prod.mk.injEq] at h
          obtain ⟨h1, -, h3⟩ := h
          refine ⟨h3.symm, ?_, ?_⟩
          · intro ok'
            rw [on_new_success db i tok now ok' l inv hf ha he hu, ← h1]
          · rw [← h1]
            exact ⟨newLogEntry db inv i l, rfl, rfl⟩
    · have ha' : l.is_active = false := by simpa using ha
      have hti : tokenInactive db tok := by
        intro l' hl'; rw [hf] at hl'
        have hll : l' = l := by simpa using hl'.symm
        rw [hll]; exact ha'
      rw [on_new_inactive db i tok now ok hti] at h
      exact absurd h (by simp)

theorem C7_witness :
    on_new_chat_member dbA 2 "t-fresh" 300 true
      = Except.ok (dbA', JoinOutcome.success,
          [Action.commitAttribution, Action.notifyInviter true]) ∧
    on_new_chat_member dbA 2 "t-fresh" 300 false
      = Except.ok (dbA', JoinOutcome.success,
          [Action.commitAttribution, Action.notifyInviter false]) :=
  ⟨rfl,
    (C7_notify_after_commit dbA 2 "t-fresh" 300 true dbA'
      [Action.commitAttribution, Action.notifyInviter true] rfl).2.1 false⟩

/-- Claim C8: in join-event processing, once a link is found active and
unexpired, `inviter.id` is dereferenced (main.py:275) before the `if inviter:`
guard at line 286; if the link's inviter user row is absent the handler raises
at that point — the attribution write is total only when the inviter row
exists. -/
theorem C8_inviter_deref (db : DB) (i : Nat) (tok : String) (now : Nat) (ok : Bool)
    (l : InviteLink) (hf : find_by_token db tok = some l) (ha : l.is_active = true)
    (he : ¬ l.expires_at < now)
    (hu : db.users.find? (fun u => u.id == l.inviter_id) = none) :
    on_new_chat_member db i tok now ok = Except.error () :=
  on_new_raises db i tok now ok l hf ha he hu

theorem C8_witness :
    dbC.users.find? (fun u => u.id == linkOrphan.inviter_id) = none ∧
    on_new_chat_member dbC 1 "t-orphan" 300 true = Except.error () :=
  ⟨by decide,
    C8_inviter_deref dbC 1 "t-orphan" 300 true linkOrphan (by decide) (by decide)
      (by decide) (by decide)⟩

/-- Claim C9: a link whose expiry timestamp equals the current instant sits on
an inconsistent boundary: the issuance-time lookup (strict `expires_at > now`)
excludes it, so it does not block issuing a new link, while the join-time
expiry check (strict `expires_at < now`) still treats it as unexpired, so it
is consumed with success and an attribution record is written. -/
theorem C9_boundary (db : DB) (i now : Nat) (tok : String) (ok : Bool)
    (l : InviteLink) (inv : User)
    (hf : find_by_token db tok = some l) (ha : l.is_active = true)
    (hb : l.expires_at = now)
    (hu : db.users.find? (fun u => u.id == l.inviter_id) = some inv) :
    (∀ uid : Nat, find_active_unexpired db uid now ≠ some l) ∧
    (∃ db', on_new_chat_member db i tok now ok
        = Except.ok (db', JoinOutcome.success,
            [Action.commitAttribution, Action.notifyInviter ok]) ∧
      db'.invitation_logs.length = db.invitation_logs.length + 1) := by
  constructor
  · intro uid hc
    have hp := List.find?_some hc
    simp only [activeFilter, Bool.and_eq_true, beq_iff_eq, decide_eq_true_eq] at hp
    omega
  · refine ⟨_, on_new_success db i tok now ok l inv hf ha (by omega) hu, by simp⟩

theorem C9_witness :
    linkEdge.expires_at = 300 ∧
    find_active_unexpired dbD 1 300 ≠ some linkEdge ∧
    (∃ db', on_new_chat_member dbD 2 "t-edge" 300 true
        = Except.ok (db', JoinOutcome.success,
            [Action.commitAttribution, Action.notifyInviter true]) ∧
      db'.invitation_logs.length = dbD.invitation_logs.length + 1) :=
  ⟨rfl,
    (C9_boundary dbD 2 300 "t-edge" true linkEdge userA (by decide) (by decide) rfl
      (by decide)).1 1,
    (C9_boundary dbD 2 300 "t-edge" true linkEdge userA (by decide) (by decide) rfl
      (by decide)).2⟩

/-- Claim C10: when several `InvitationLog` rows exist for the same invitee,
the who-invited query answers with the first-inserted matching row — the one
with the lowest id, since autoincrement ids grow in insertion order — not the
most recent one. -/
theorem C10_first_inserted (db : DB) (inviteeId : Nat) (e : InvitationLog)
    (hsorted : db.invitation_logs.Pairwise (fun a b => a.id < b.id))
    (h : lookup_inviter_log db inviteeId = some e) :
    e.invitee_id = inviteeId ∧
    ∀ e' ∈ db.invitation_logs, e'.invitee_id = inviteeId → e.id ≤ e'.id :=
  find?_min_id inviteeId db.invitation_logs hsorted e h

theorem C10_witness :
    lookup_inviter_log dbE 5 = some logEarly ∧ logEarly.id < logLate.id ∧
    logEarly.invitee_id = 5 ∧
    ∀ e' ∈ dbE.invitation_logs, e'.invitee_id = 5 → logEarly.id ≤ e'.id :=
  ⟨by decide, by decide,
    (C10_first_inserted dbE 5 logEarly (by decide) (by decide)).1,
    (C10_first_inserted dbE 5 logEarly (by decide) (by decide)).2⟩

end TgInviteBot
